import Mathlib

/-!
Verification of the CryptoTracker streaming-ingestion resilience layer.

The development shallowly embeds the TypeScript sources:
* `ReconnectPolicy` (exponential backoff with jitter) from the
  `ReconnectPolicy` class;
* the `BinanceWS` connection manager (heartbeat / staleness / reconnect
  paths and the inbound-message handler);
* `batchedThrottle` from `utils/throttle.ts` (the coalescer);
* `flushBatch` from `store/useTickerStore.ts` (the keyed merge step).

JavaScript numbers are modelled as rationals (`ℚ`), `Math.floor` as
`Int.floor`, `Math.random()` as an explicit rational draw `r` with
`0 ≤ r < 1`, and the throwing `getNextDelay` as an `Option`-valued
function.  JS `Map` objects are modelled as functions `String → Option _`.
-/

/-- Configuration record of the `ReconnectPolicy` class
(`ReconnectConfig` in the source).  `maxAttempts` is a count, kept as a
natural number; the delays and the multiplier are JS numbers, kept as
rationals. -/
structure ReconnectConfig where
  initialDelay : ℚ
  maxDelay : ℚ
  multiplier : ℚ
  maxAttempts : ℕ
  jitter : Bool
deriving DecidableEq, Repr

/-- Mutable state of a `ReconnectPolicy` instance: the immutable
configuration plus the fields `currentAttempt` and `currentDelay`. -/
structure ReconnectPolicy where
  config : ReconnectConfig
  currentAttempt : ℕ
  currentDelay : ℚ
deriving DecidableEq, Repr

/-- The defaults filled in by the constructor when no overrides are
given: `initialDelay=1000, maxDelay=30000, multiplier=2, maxAttempts=10,
jitter=true`. -/
def defaultReconnectConfig : ReconnectConfig :=
  { initialDelay := 1000, maxDelay := 30000, multiplier := 2
    maxAttempts := 10, jitter := true }

/-- The constructor: `currentAttempt = 0`, `currentDelay = initialDelay`. -/
def ReconnectPolicy.mk0 (cfg : ReconnectConfig) : ReconnectPolicy :=
  { config := cfg, currentAttempt := 0, currentDelay := cfg.initialDelay }

/-- Method `getNextDelay()`.  Throws (here: `none`) when
`currentAttempt >= maxAttempts`; otherwise computes
`delay = min(initialDelay * multiplier ^ currentAttempt, maxDelay)`,
multiplies by the jitter factor `0.5 + r * 0.5` when jitter is enabled
(`r` stands for the `Math.random()` draw), increments `currentAttempt`,
stores the (unfloored) delay in `currentDelay` and returns
`Math.floor(delay)`. -/
def ReconnectPolicy.getNextDelay (p : ReconnectPolicy) (r : ℚ) :
    Option (ℤ × ReconnectPolicy) :=
  if p.currentAttempt ≥ p.config.maxAttempts then
    none
  else
    let d0 := p.config.initialDelay * p.config.multiplier ^ p.currentAttempt
    let d1 := min d0 p.config.maxDelay
    let d2 := if p.config.jitter then d1 * (1/2 + r * (1/2)) else d1
    some (⌊d2⌋, { config := p.config, currentAttempt := p.currentAttempt + 1
                  currentDelay := d2 })

/-- Method `canRetry()`: `currentAttempt < maxAttempts`. -/
def ReconnectPolicy.canRetry (p : ReconnectPolicy) : Bool :=
  p.currentAttempt < p.config.maxAttempts

/-- Method `reset()`: `currentAttempt := 0`, `currentDelay := initialDelay`. -/
def ReconnectPolicy.reset (p : ReconnectPolicy) : ReconnectPolicy :=
  { config := p.config, currentAttempt := 0
    currentDelay := p.config.initialDelay }

/-- The `rawDelay` quantity of the specification:
`min(initialDelay * multiplier ^ attempt, maxDelay)` at the policy's
current attempt counter. -/
def rawDelay (p : ReconnectPolicy) : ℚ :=
  min (p.config.initialDelay * p.config.multiplier ^ p.currentAttempt)
    p.config.maxDelay

/-- One public operation on a `ReconnectPolicy`; `nextDelayOp` carries
the random draw consumed by that call. -/
inductive PolicyOp where
  | nextDelayOp (r : ℚ)
  | canRetryOp
  | resetOp
deriving DecidableEq

/-- Run one operation; a throwing `getNextDelay` leaves the state
unchanged (the exception escapes before the counter is touched). -/
def runOp (p : ReconnectPolicy) (op : PolicyOp) : ReconnectPolicy :=
  match op with
  | .nextDelayOp r =>
      match p.getNextDelay r with
      | some (_, p') => p'
      | none => p
  | .canRetryOp => p
  | .resetOp => p.reset

/-- Run a sequence of operations from a freshly constructed policy. -/
def runOps (cfg : ReconnectConfig) (ops : List PolicyOp) : ReconnectPolicy :=
  ops.foldl runOp (ReconnectPolicy.mk0 cfg)

/-- Makes `k` successive `getNextDelay` calls from a freshly constructed
policy, the `n`-th call consuming the draw `rs n`. -/
def runNextCalls (cfg : ReconnectConfig) (rs : ℕ → ℚ) : ℕ → ReconnectPolicy
  | 0 => ReconnectPolicy.mk0 cfg
  | k + 1 => runOp (runNextCalls cfg rs k) (.nextDelayOp (rs k))

/-- The BackoffState invariant of the specification:
`0 ≤ attempt ≤ maxAttempts` and `currentDelay ≤ maxDelay`
(`0 ≤ attempt` is automatic since the counter is a natural number). -/
def PolicyInv (p : ReconnectPolicy) : Prop :=
  p.currentAttempt ≤ p.config.maxAttempts ∧
    p.currentDelay ≤ p.config.maxDelay

/-- A `nextDelayOp` draw is a `Math.random()` result: in `[0, 1)`. -/
def ValidDraw (op : PolicyOp) : Prop :=
  match op with
  | .nextDelayOp r => 0 ≤ r ∧ r < 1
  | _ => True

instance : DecidablePred ValidDraw := by
  intro op
  unfold ValidDraw
  cases op <;> infer_instance

/-! ### BinanceWS connection manager -/

/-- A parsed inbound frame, restricted to the fields the handler
inspects: whether `data.result === null`, the `id` field and the `e`
(event type) field. -/
structure WSMessage where
  resultIsNull : Bool
  msgId : Option ℤ
  eventType : Option String
deriving DecidableEq

/-- The subscription-acknowledgment test of `onMessage`:
`data.result === null && data.id === 1`. -/
def isAck (m : WSMessage) : Bool :=
  m.resultIsNull && m.msgId == some 1

/-- State of a `BinanceWS` instance.  `wsPresent`/`wsOpen` model
`this.ws !== null` and `readyState === OPEN`; the counters record the
observable effects the claims speak about: `socketsOpened` counts
`new WebSocket(...)` constructions (immediate connection attempts) and
`reconnectsScheduled` counts `setTimeout` reconnect schedulings in
`handleReconnection`.  `pendingCloseEvents` counts close events of
sockets closed by `disconnect()` whose handlers are still attached and
will fire on a later event-loop turn. -/
structure BWState where
  wsPresent : Bool
  wsOpen : Bool
  intentionallyClosed : Bool
  reconnectTimerArmed : Bool
  heartbeatArmed : Bool
  lastMessageTime : ℤ
  policy : ReconnectPolicy
  socketsOpened : ℕ
  reconnectsScheduled : ℕ
  pendingCloseEvents : ℕ
deriving DecidableEq

/-- Method `connectWebSocket()` (success path): constructs a new transport
socket, initially not yet open. -/
def BWState.connectSocket (s : BWState) : BWState :=
  { s with wsPresent := true, wsOpen := false
           socketsOpened := s.socketsOpened + 1 }

/-- Method `connect()`: no-op when a socket exists and is open; otherwise
clears `isIntentionallyClosed` and calls `connectWebSocket()`. -/
def BWState.connect (s : BWState) : BWState :=
  if s.wsPresent && s.wsOpen then s
  else BWState.connectSocket { s with intentionallyClosed := false }

/-- Method `handleReconnection()`: if the policy cannot retry, report the
fatal error (no scheduling); otherwise consume `getNextDelay()` (draw
`r`) and schedule one reconnect timer. -/
def BWState.handleReconnection (s : BWState) (r : ℚ) : BWState :=
  if ¬ s.policy.canRetry then s
  else
    match s.policy.getNextDelay r with
    | some (_, p') =>
        { s with policy := p', reconnectTimerArmed := true
                 reconnectsScheduled := s.reconnectsScheduled + 1 }
    | none => s

/-- Handler `onClose(event)`: stop the heartbeat, notify `disconnected`, and
when the close was not intentional run `handleReconnection()`. -/
def BWState.onClose (s : BWState) (r : ℚ) : BWState :=
  let s1 := { s with heartbeatArmed := false }
  if s1.intentionallyClosed then s1 else s1.handleReconnection r

/-- Method `disconnect()`: set `isIntentionallyClosed`, stop the heartbeat,
cancel a pending reconnect timer, and close and drop the socket; the
closed socket's close event is queued for a later turn. -/
def BWState.disconnect (s : BWState) : BWState :=
  let s1 := { s with intentionallyClosed := true, heartbeatArmed := false
                     reconnectTimerArmed := false }
  if s1.wsPresent then
    { s1 with wsPresent := false, wsOpen := false
              pendingCloseEvents := s1.pendingCloseEvents + 1 }
  else s1

/-- The private `reconnect()` used by the staleness check:
`disconnect()` followed immediately (same turn) by `connect()`. -/
def BWState.forceReconnect (s : BWState) : BWState :=
  s.disconnect.connect

/-- One heartbeat interval tick at time `now`: while the heartbeat is
armed, if `now - lastMessageTime > 60000` (the stale threshold) the
manager force-reconnects. -/
def BWState.heartbeatTick (s : BWState) (now : ℤ) : BWState :=
  if s.heartbeatArmed && decide (now - s.lastMessageTime > 60000) then
    s.forceReconnect
  else s

/-- Delivery (on a later event-loop turn) of the queued close event of
a socket that `disconnect()` closed. -/
def BWState.deliverClose (s : BWState) (r : ℚ) : BWState :=
  if s.pendingCloseEvents > 0 then
    BWState.onClose
      { s with pendingCloseEvents := s.pendingCloseEvents - 1 } r
  else s

/-- Handler `onMessage(event)`: stamp `lastMessageTime := now`; drop
subscription acknowledgments; forward the payload to the owner's
ticker callback only when `data.e === '24hrTicker'`.  The second
component is the payload handed to the callback, if any. -/
def BWState.onMessage (s : BWState) (now : ℤ) (m : WSMessage) :
    BWState × Option WSMessage :=
  let s1 := { s with lastMessageTime := now }
  if isAck m then (s1, none)
  else if m.eventType == some "24hrTicker" then (s1, some m)
  else (s1, none)

/-- A representative `Open` state: live open socket, heartbeat armed,
fresh default policy, no pending timers or events. -/
def BWState.openState : BWState :=
  { wsPresent := true, wsOpen := true, intentionallyClosed := false
    reconnectTimerArmed := false, heartbeatArmed := true
    lastMessageTime := 0
    policy := ReconnectPolicy.mk0 defaultReconnectConfig
    socketsOpened := 0, reconnectsScheduled := 0, pendingCloseEvents := 0 }

/-! ### Coalescer (`batchedThrottle`) -/

/-- Closure state of `batchedThrottle`: the pending `batch` array and
whether a flush timer (`timeoutId`) is currently scheduled. -/
structure Coalescer (T : Type) where
  batch : List T
  timerArmed : Bool
deriving DecidableEq

/-- The initial closure state: empty batch, no timer. -/
def Coalescer.empty {T : Type} : Coalescer T :=
  { batch := [], timerArmed := false }

/-- Closure `addToBatch(item)`: push the item; if no timer is scheduled,
schedule one. -/
def Coalescer.addToBatch {T : Type} (c : Coalescer T) (x : T) :
    Coalescer T :=
  let c1 := { c with batch := c.batch ++ [x] }
  if c1.timerArmed then c1 else { c1 with timerArmed := true }

/-- The timer callback: when the batch is non-empty, invoke the
consumer with a snapshot copy of the batch and clear it; either way
the timer slot is cleared.  The second component is the batch handed
to the consumer callback, if any. -/
def Coalescer.fireTimer {T : Type} (c : Coalescer T) :
    Coalescer T × Option (List T) :=
  if c.batch.length > 0 then
    ({ batch := [], timerArmed := false }, some c.batch)
  else ({ c with timerArmed := false }, none)

/-! ### FeedStore merge (`flushBatch` in `useTickerStore.ts`) -/

/-- The `Ticker` domain model. -/
structure Ticker where
  symbol : String
  currentPrice : ℚ
  priceChange : ℚ
  priceChangePercent : ℚ
  highPrice : ℚ
  lowPrice : ℚ
  volume : ℚ
  lastUpdateTime : ℤ
deriving DecidableEq

/-- The slice of the Zustand store state `flushBatch` touches: the
symbol-keyed ticker table (a JS `Map`, modelled as a lookup function),
the `lastUpdateTime` stamp, and a count of `set(...)` state updates
performed (to record that one flush performs one merge). -/
structure TickerStore where
  tickers : String → Option Ticker
  lastUpdateTime : ℤ
  setCalls : ℕ

/-- The loop body of `flushBatch`: starting from a copy of the current
map, `newTickers.set(ticker.symbol, ticker)` for each batch element in
order. -/
def mergeTickers (m : String → Option Ticker) (batch : List Ticker) :
    String → Option Ticker :=
  batch.foldl (fun acc t => fun k =>
    if k = t.symbol then some t else acc k) m

/-- Callback `flushBatch(tickers)`: early-return on an empty batch; otherwise a
single `set` call replaces the table with a fresh map holding the
merged entries and stamps `lastUpdateTime` with the current time. -/
def flushBatch (st : TickerStore) (batch : List Ticker) (now : ℤ) :
    TickerStore :=
  if batch.length = 0 then st
  else
    { tickers := mergeTickers st.tickers batch
      lastUpdateTime := now
      setCalls := st.setCalls + 1 }

/-- A concrete record for `"BTCUSDT"` (earlier update). -/
def tBTC1 : Ticker :=
  { symbol := "BTCUSDT", currentPrice := 100, priceChange := 1
    priceChangePercent := 1, highPrice := 110, lowPrice := 90
    volume := 5, lastUpdateTime := 1 }

/-- A concrete record for `"BTCUSDT"` (later update). -/
def tBTC2 : Ticker :=
  { symbol := "BTCUSDT", currentPrice := 101, priceChange := 2
    priceChangePercent := 2, highPrice := 111, lowPrice := 91
    volume := 6, lastUpdateTime := 2 }

/-- A concrete record for `"ETHUSDT"`. -/
def tETH : Ticker :=
  { symbol := "ETHUSDT", currentPrice := 10, priceChange := 1
    priceChangePercent := 1, highPrice := 11, lowPrice := 9
    volume := 3, lastUpdateTime := 1 }

/-- A store whose table holds just the `"ETHUSDT"` record. -/
def ethStore : TickerStore :=
  { tickers := fun k => if k = "ETHUSDT" then some tETH else none
    lastUpdateTime := 0, setCalls := 0 }

-- Helper lemmas about the policy operations.

theorem runOp_config (p : ReconnectPolicy) (op : PolicyOp) :
    (runOp p op).config = p.config := by
  cases op with
  | nextDelayOp r =>
      unfold runOp ReconnectPolicy.getNextDelay
      by_cases h : p.currentAttempt ≥ p.config.maxAttempts <;> simp [h]
  | canRetryOp => rfl
  | resetOp => rfl

theorem runNextCalls_config (cfg : ReconnectConfig) (rs : ℕ → ℚ) (k : ℕ) :
    (runNextCalls cfg rs k).config = cfg := by
  induction k with
  | zero => rfl
  | succ k ih => rw [runNextCalls, runOp_config, ih]

theorem runNextCalls_attempt (cfg : ReconnectConfig) (rs : ℕ → ℚ) (k : ℕ) :
    (runNextCalls cfg rs k).currentAttempt = min k cfg.maxAttempts := by
  induction k with
  | zero => simp [runNextCalls, ReconnectPolicy.mk0]
  | succ k ih =>
      rw [runNextCalls]
      by_cases h : (runNextCalls cfg rs k).currentAttempt ≥
          (runNextCalls cfg rs k).config.maxAttempts
      · have hk : cfg.maxAttempts ≤ k := by
          rw [runNextCalls_config, ih] at h; omega
        simp only [runOp, ReconnectPolicy.getNextDelay, if_pos h]
        rw [ih]; omega
      · have hk : k < cfg.maxAttempts := by
          rw [runNextCalls_config, ih] at h; omega
        simp only [runOp, ReconnectPolicy.getNextDelay, if_neg h]
        rw [ih]; omega

theorem canRetry_iff (p : ReconnectPolicy) :
    p.canRetry = true ↔ p.currentAttempt < p.config.maxAttempts := by
  simp [ReconnectPolicy.canRetry]

theorem getNextDelay_isSome (p : ReconnectPolicy) (r : ℚ)
    (h : p.currentAttempt < p.config.maxAttempts) :
    (p.getNextDelay r).isSome = true := by
  unfold ReconnectPolicy.getNextDelay
  rw [if_neg (by omega)]
  rfl

theorem getNextDelay_none (p : ReconnectPolicy) (r : ℚ)
    (h : p.config.maxAttempts ≤ p.currentAttempt) :
    p.getNextDelay r = none := by
  unfold ReconnectPolicy.getNextDelay
  rw [if_pos h]

/-- One operation preserves the BackoffState invariant, provided the
configuration satisfies `0 ≤ initialDelay ≤ maxDelay` and the random
draws lie in `[0, 1)`. -/
theorem runOp_inv (p : ReconnectPolicy) (op : PolicyOp)
    (hg0 : 0 ≤ p.config.initialDelay)
    (hg1 : p.config.initialDelay ≤ p.config.maxDelay)
    (hv : ValidDraw op) (h : PolicyInv p) : PolicyInv (runOp p op) := by
  have hmax : (0:ℚ) ≤ p.config.maxDelay := le_trans hg0 hg1
  cases op with
  | canRetryOp => exact h
  | resetOp => exact ⟨Nat.zero_le _, hg1⟩
  | nextDelayOp r =>
      obtain ⟨hr0, hr1⟩ := hv
      by_cases hc : p.currentAttempt ≥ p.config.maxAttempts
      · simp only [runOp, ReconnectPolicy.getNextDelay, if_pos hc]
        exact h
      · simp only [runOp, ReconnectPolicy.getNextDelay, if_neg hc]
        constructor
        · simp only [PolicyInv]
          omega
        · set d1 : ℚ :=
            min (p.config.initialDelay *
              p.config.multiplier ^ p.currentAttempt) p.config.maxDelay
            with hd1
          have hd1le : d1 ≤ p.config.maxDelay := min_le_right _ _
          by_cases hj : p.config.jitter
          · simp only [PolicyInv, hj, if_true]
            have hf0 : (0:ℚ) ≤ 1/2 + r * (1/2) := by nlinarith
            have hf1 : (1/2 : ℚ) + r * (1/2) ≤ 1 := by nlinarith
            rcases le_or_lt 0 d1 with hpos | hneg
            · calc d1 * (1/2 + r * (1/2)) ≤ d1 * 1 :=
                    mul_le_mul_of_nonneg_left hf1 hpos
                _ = d1 := mul_one d1
                _ ≤ p.config.maxDelay := hd1le
            · calc d1 * (1/2 + r * (1/2)) ≤ 0 :=
                    mul_nonpos_of_nonpos_of_nonneg (le_of_lt hneg) hf0
                _ ≤ p.config.maxDelay := hmax
          · simp only [PolicyInv, hj, if_false]
            simpa using hd1le

/-- The invariant holds for a freshly constructed policy and after any
sequence of operations, under `0 ≤ initialDelay ≤ maxDelay` and draws
in `[0, 1)`. -/
theorem runOps_inv_aux (cfg : ReconnectConfig)
    (hg0 : 0 ≤ cfg.initialDelay) (hg1 : cfg.initialDelay ≤ cfg.maxDelay) :
    ∀ (ops : List PolicyOp) (p : ReconnectPolicy), p.config = cfg →
      PolicyInv p → (∀ op ∈ ops, ValidDraw op) →
      PolicyInv (ops.foldl runOp p)
  | [], p, _, h, _ => h
  | op :: ops, p, hcfg, h, hops => by
      rw [List.foldl_cons]
      refine runOps_inv_aux cfg hg0 hg1 ops (runOp p op) ?_ ?_ ?_
      · rw [runOp_config, hcfg]
      · exact runOp_inv p op (hcfg ▸ hg0) (hcfg ▸ hg1)
          (hops op (List.mem_cons_self op ops)) h
      · exact fun o ho => hops o (List.mem_cons_of_mem op ho)

/-- C1: with jitter disabled and `currentAttempt < maxAttempts`, a
`getNextDelay()` call returns exactly
`min(initialDelay * multiplier ^ attempt, maxDelay)` as an integer
(the final `Math.floor` is the identity when `initialDelay`,
`multiplier` and `maxDelay` are integers) and increments the attempt
counter by exactly 1. -/
theorem getNextDelay_noJitter_exact (p : ReconnectPolicy) (r : ℚ)
    (i m x : ℤ)
    (hj : p.config.jitter = false)
    (ha : p.currentAttempt < p.config.maxAttempts)
    (hi : p.config.initialDelay = (i : ℚ))
    (hm : p.config.multiplier = (m : ℚ))
    (hx : p.config.maxDelay = (x : ℚ)) :
    p.getNextDelay r =
      some (min (i * m ^ p.currentAttempt) x,
        { config := p.config, currentAttempt := p.currentAttempt + 1
          currentDelay := min ((i : ℚ) * (m : ℚ) ^ p.currentAttempt)
            (x : ℚ) }) := by
  unfold ReconnectPolicy.getNextDelay
  rw [if_neg (by omega)]
  simp only [hj, if_false, Bool.false_eq_true]
  rw [hi, hm, hx]
  have hcast : (i : ℚ) * (m : ℚ) ^ p.currentAttempt =
      ((i * m ^ p.currentAttempt : ℤ) : ℚ) := by push_cast; ring
  rw [hcast, ← Int.cast_min, Int.floor_intCast]

/-- Witness for C1 at the default configuration with jitter turned off:
the first call returns exactly `min(1000 * 2 ^ 0, 30000) = 1000`. -/
theorem getNextDelay_noJitter_exact_witness :
    (ReconnectPolicy.mk0
        { initialDelay := 1000, maxDelay := 30000, multiplier := 2
          maxAttempts := 10, jitter := false }).getNextDelay 0 =
      some (1000,
        { config := { initialDelay := 1000, maxDelay := 30000
                      multiplier := 2, maxAttempts := 10, jitter := false }
          currentAttempt := 1, currentDelay := 1000 }) := by
  rw [getNextDelay_noJitter_exact _ 0 1000 2 30000 rfl (by decide) rfl rfl
    rfl]
  norm_num [ReconnectPolicy.mk0]

/-- C2: from a freshly constructed policy, while fewer than
`maxAttempts` calls to `getNextDelay()` have been made `canRetry()` is
`true` and the next call succeeds; after exactly `maxAttempts` calls
`canRetry()` is `false` and the next call fails; and in every state
`canRetry()` is `true` iff `currentAttempt < maxAttempts` — the two
flip at the same point.  The last conjunct shows a `reset()` state is
the freshly constructed state, so counting calls since the last
`reset()` reduces to counting them since construction. -/
theorem exhaustion_boundary (cfg : ReconnectConfig) (rs : ℕ → ℚ) (r : ℚ) :
    (∀ k, k < cfg.maxAttempts →
        (runNextCalls cfg rs k).canRetry = true ∧
        ((runNextCalls cfg rs k).getNextDelay (rs k)).isSome = true) ∧
    (runNextCalls cfg rs cfg.maxAttempts).canRetry = false ∧
    (runNextCalls cfg rs cfg.maxAttempts).getNextDelay r = none ∧
    (∀ q : ReconnectPolicy,
        q.canRetry = true ↔ q.currentAttempt < q.config.maxAttempts) ∧
    (∀ q : ReconnectPolicy, q.reset = ReconnectPolicy.mk0 q.config) := by
  refine ⟨fun k hk => ?_, ?_, ?_, canRetry_iff, fun _ => rfl⟩
  · have ha : (runNextCalls cfg rs k).currentAttempt <
        (runNextCalls cfg rs k).config.maxAttempts := by
      rw [runNextCalls_config, runNextCalls_attempt]; omega
    exact ⟨(canRetry_iff _).mpr ha, getNextDelay_isSome _ _ ha⟩
  · have ha : ¬ (runNextCalls cfg rs cfg.maxAttempts).currentAttempt <
        (runNextCalls cfg rs cfg.maxAttempts).config.maxAttempts := by
      rw [runNextCalls_config, runNextCalls_attempt]; omega
    simp only [ReconnectPolicy.canRetry, decide_eq_false_iff_not]
    exact ha
  · apply getNextDelay_none
    rw [runNextCalls_config, runNextCalls_attempt]; omega

/-- Witness for C2 with `maxAttempts = 2`: after 1 call retrying is
still possible, after 2 calls `canRetry` is `false` and the third call
fails. -/
theorem exhaustion_boundary_witness :
    (runNextCalls
        { initialDelay := 1000, maxDelay := 30000, multiplier := 2
          maxAttempts := 2, jitter := true } (fun _ => 0) 1).canRetry =
      true ∧
    (runNextCalls
        { initialDelay := 1000, maxDelay := 30000, multiplier := 2
          maxAttempts := 2, jitter := true } (fun _ => 0) 2).canRetry =
      false ∧
    (runNextCalls
        { initialDelay := 1000, maxDelay := 30000, multiplier := 2
          maxAttempts := 2, jitter := true } (fun _ => 0) 2).getNextDelay
        0 = none := by
  have h := exhaustion_boundary
    { initialDelay := 1000, maxDelay := 30000, multiplier := 2
      maxAttempts := 2, jitter := true } (fun _ => 0) 0
  exact ⟨(h.1 1 (by decide)).1, h.2.1, h.2.2.1⟩

/-- C7: with jitter enabled, nonnegative configuration values, draw
`r ∈ [0, 1)` and `currentAttempt < maxAttempts`, `getNextDelay()`
returns an integer `d` with `⌊rawDelay / 2⌋ ≤ d ≤ rawDelay`, where
`rawDelay = min(initialDelay * multiplier ^ attempt, maxDelay)` —
the claim's interval `[0.5 * rawDelay, rawDelay]` up to the final
flooring to an integer. -/
theorem getNextDelay_jitter_bounds (p : ReconnectPolicy) (r : ℚ)
    (hj : p.config.jitter = true)
    (ha : p.currentAttempt < p.config.maxAttempts)
    (hi : 0 ≤ p.config.initialDelay)
    (hm : 0 ≤ p.config.multiplier)
    (hx : 0 ≤ p.config.maxDelay)
    (hr0 : 0 ≤ r) (hr1 : r < 1) :
    ∃ d p', p.getNextDelay r = some (d, p') ∧
      ⌊rawDelay p / 2⌋ ≤ d ∧ (d : ℚ) ≤ rawDelay p := by
  unfold ReconnectPolicy.getNextDelay
  rw [if_neg (by omega)]
  simp only [hj, if_true]
  refine ⟨_, _, rfl, ?_, ?_⟩
  · apply Int.floor_le_floor
    have hraw : 0 ≤ rawDelay p :=
      le_min (mul_nonneg hi (pow_nonneg hm _)) hx
    have : rawDelay p * (1/2) ≤ rawDelay p * (1/2 + r * (1/2)) := by
      nlinarith
    calc rawDelay p / 2 = rawDelay p * (1/2) := by ring
      _ ≤ rawDelay p * (1/2 + r * (1/2)) := this
      _ = min (p.config.initialDelay *
            p.config.multiplier ^ p.currentAttempt) p.config.maxDelay *
            (1/2 + r * (1/2)) := rfl
  · have hraw : 0 ≤ rawDelay p :=
      le_min (mul_nonneg hi (pow_nonneg hm _)) hx
    have hstep : rawDelay p * (1/2 + r * (1/2)) ≤ rawDelay p := by
      nlinarith
    calc ((⌊min (p.config.initialDelay *
            p.config.multiplier ^ p.currentAttempt) p.config.maxDelay *
            (1/2 + r * (1/2))⌋ : ℚ))
        ≤ rawDelay p * (1/2 + r * (1/2)) := Int.floor_le _
      _ ≤ rawDelay p := hstep

/-- Witness for C7 at the default configuration with draw 0: the first
jittered delay is an integer between `⌊1000 / 2⌋` and `1000`. -/
theorem getNextDelay_jitter_bounds_witness :
    ∃ d p', (ReconnectPolicy.mk0 defaultReconnectConfig).getNextDelay 0 =
        some (d, p') ∧
      ⌊rawDelay (ReconnectPolicy.mk0 defaultReconnectConfig) / 2⌋ ≤ d ∧
      (d : ℚ) ≤ rawDelay (ReconnectPolicy.mk0 defaultReconnectConfig) :=
  getNextDelay_jitter_bounds (ReconnectPolicy.mk0 defaultReconnectConfig)
    0 rfl (by decide)
    (by norm_num [ReconnectPolicy.mk0, defaultReconnectConfig])
    (by norm_num [ReconnectPolicy.mk0, defaultReconnectConfig])
    (by norm_num [ReconnectPolicy.mk0, defaultReconnectConfig])
    le_rfl (by norm_num)

/-- C8: in every state (in particular every reachable one), `reset()`
sets the attempt counter to 0 and `currentDelay` to `initialDelay`, and
the reset state is literally the freshly constructed state for the same
configuration, so the next `getNextDelay()` (same draw) agrees with the
first call on a fresh policy. -/
theorem reset_matches_fresh (p : ReconnectPolicy) (r : ℚ) :
    p.reset.currentAttempt = 0 ∧
    p.reset.currentDelay = p.config.initialDelay ∧
    p.reset = ReconnectPolicy.mk0 p.config ∧
    p.reset.getNextDelay r =
      (ReconnectPolicy.mk0 p.config).getNextDelay r :=
  ⟨rfl, rfl, rfl, rfl⟩

/-- Counterexample to C9 as stated: for the configuration
`initialDelay = 2, maxDelay = 1` (jitter off), the invariant
`currentDelay ≤ maxDelay` is already violated immediately after
construction. -/
theorem policy_invariant_cex :
    ¬ PolicyInv (ReconnectPolicy.mk0
      { initialDelay := 2, maxDelay := 1, multiplier := 2
        maxAttempts := 10, jitter := false }) := by
  intro h
  have := h.2
  norm_num [ReconnectPolicy.mk0] at this

/-- C9 (amended): for every configuration with
`0 ≤ initialDelay ≤ maxDelay` and random draws in `[0, 1)`, the
BackoffState invariant `0 ≤ attempt ≤ maxAttempts ∧
currentDelay ≤ maxDelay` holds immediately after construction and after
every sequence of `getNextDelay` / `canRetry` / `reset` calls
(`0 ≤ attempt` holds by the type of the counter). -/
theorem policy_invariant (cfg : ReconnectConfig) (ops : List PolicyOp)
    (hg0 : 0 ≤ cfg.initialDelay) (hg1 : cfg.initialDelay ≤ cfg.maxDelay)
    (hops : ∀ op ∈ ops, ValidDraw op) :
    PolicyInv (ReconnectPolicy.mk0 cfg) ∧ PolicyInv (runOps cfg ops) := by
  have h0 : PolicyInv (ReconnectPolicy.mk0 cfg) := ⟨Nat.zero_le _, hg1⟩
  exact ⟨h0, runOps_inv_aux cfg hg0 hg1 ops _ rfl h0 hops⟩

/-- Witness for C9 at the default configuration and the call sequence
`getNextDelay; canRetry; reset; getNextDelay`. -/
theorem policy_invariant_witness :
    PolicyInv (ReconnectPolicy.mk0 defaultReconnectConfig) ∧
    PolicyInv (runOps defaultReconnectConfig
      [.nextDelayOp 0, .canRetryOp, .resetOp, .nextDelayOp (1/2)]) :=
  policy_invariant defaultReconnectConfig
    [.nextDelayOp 0, .canRetryOp, .resetOp, .nextDelayOp (1/2)]
    (by norm_num [defaultReconnectConfig])
    (by norm_num [defaultReconnectConfig])
    (by
      intro op hop
      fin_cases hop <;> norm_num [ValidDraw])

/-- C3 (failing input, bug evaluation): from the `Open` state, a
heartbeat tick at `now = 60001` (staleness detected, threshold 60000)
immediately opens a new socket without consulting the backoff policy
(`socketsOpened = 1`, `reconnectsScheduled = 0`, policy untouched) and
leaves `intentionallyClosed = false`; the force-closed socket's queued
close event then takes the unintentional-close path and schedules a
second reconnect (`reconnectsScheduled = 1`), so one staleness
detection yields two reconnect initiations, not exactly one
backoff-delayed one. -/
theorem stale_reconnect_divergence :
    (BWState.openState.heartbeatTick 60001).socketsOpened = 1 ∧
    (BWState.openState.heartbeatTick 60001).reconnectsScheduled = 0 ∧
    (BWState.openState.heartbeatTick 60001).policy =
      ReconnectPolicy.mk0 defaultReconnectConfig ∧
    (BWState.openState.heartbeatTick 60001).intentionallyClosed = false ∧
    ((BWState.openState.heartbeatTick 60001).deliverClose
        0).reconnectsScheduled = 1 ∧
    ((BWState.openState.heartbeatTick 60001).deliverClose
        0).socketsOpened = 1 := by
  decide

/-- Counterexample to C4 as stated: the payload with
`e = "trade"` (no `result`/`id` fields) is not a subscription
acknowledgment, yet `onMessage` does not forward it to the owner's
ticker callback. -/
theorem onMessage_nonAck_dropped_cex :
    isAck { resultIsNull := false, msgId := none
            eventType := some "trade" } = false ∧
    (BWState.openState.onMessage 5
        { resultIsNull := false, msgId := none
          eventType := some "trade" }).2 = none := by
  decide

/-- C4 (amended): every inbound frame updates `lastMessageTime`; an
acknowledgment (`result === null && id === 1`) is never forwarded; a
payload is forwarded (unchanged) iff it is not an acknowledgment and
its event-type field equals `"24hrTicker"`; and nothing other than the
received payload is ever forwarded. -/
theorem onMessage_forwarding (s : BWState) (now : ℤ) (m : WSMessage) :
    ((s.onMessage now m).1.lastMessageTime = now) ∧
    (isAck m = true → (s.onMessage now m).2 = none) ∧
    ((s.onMessage now m).2 = some m ↔
      (isAck m = false ∧ m.eventType = some "24hrTicker")) ∧
    (∀ m', (s.onMessage now m).2 = some m' → m' = m) := by
  by_cases hA : isAck m
  · simp [BWState.onMessage, hA]
  · by_cases hE : m.eventType = some "24hrTicker"
    · simp [BWState.onMessage, hA, hE]
    · simp [BWState.onMessage, hA, hE]

/-- Witness for C4 (amended) at a concrete ticker frame: a
`24hrTicker` payload is forwarded unchanged and stamps
`lastMessageTime`. -/
theorem onMessage_forwarding_witness :
    ((BWState.openState.onMessage 7
        { resultIsNull := false, msgId := none
          eventType := some "24hrTicker" }).1.lastMessageTime = 7) ∧
    ((BWState.openState.onMessage 7
        { resultIsNull := false, msgId := none
          eventType := some "24hrTicker" }).2 =
      some { resultIsNull := false, msgId := none
             eventType := some "24hrTicker" }) := by
  have h := onMessage_forwarding BWState.openState 7
    { resultIsNull := false, msgId := none
      eventType := some "24hrTicker" }
  exact ⟨h.1, h.2.2.1.mpr ⟨by decide, rfl⟩⟩

/-- C5: adding `a, b, c` within one interval and then firing the timer
invokes the consumer exactly once with exactly `[a, b, c]` in arrival
order and leaves the batch empty with no timer armed; with no `add`,
no timer is armed and a (hypothetical) timer firing invokes no
callback. -/
theorem coalescer_batch_flush {T : Type} (a b c : T) :
    (((Coalescer.empty.addToBatch a).addToBatch b).addToBatch
        c).timerArmed = true ∧
    (((Coalescer.empty.addToBatch a).addToBatch b).addToBatch
        c).fireTimer = (Coalescer.empty, some [a, b, c]) ∧
    (Coalescer.empty : Coalescer T).timerArmed = false ∧
    (Coalescer.empty : Coalescer T).fireTimer =
      (Coalescer.empty, none) := by
  refine ⟨rfl, ?_, rfl, rfl⟩
  simp [Coalescer.empty, Coalescer.addToBatch, Coalescer.fireTimer]

/-- Witness for C5 at `a, b, c = 1, 2, 3` over the naturals. -/
theorem coalescer_batch_flush_witness :
    (((Coalescer.empty.addToBatch 1).addToBatch 2).addToBatch
        3).fireTimer = (Coalescer.empty, some [1, 2, 3]) ∧
    (Coalescer.empty : Coalescer ℕ).fireTimer =
      (Coalescer.empty, none) :=
  ⟨(coalescer_batch_flush 1 2 3).2.1, (coalescer_batch_flush 1 2 3).2.2.2⟩

/-- Pointwise characterisation of the merge loop: at key `k` the merged
map holds the last batch record whose symbol is `k`, and the prior
entry when the batch has none. -/
theorem mergeTickers_eq_getLast (m : String → Option Ticker)
    (batch : List Ticker) (k : String) :
    mergeTickers m batch k =
      match (batch.filter (fun t => t.symbol = k)).getLast? with
      | some t => some t
      | none => m k := by
  induction batch using List.reverseRecOn with
  | nil => rfl
  | append_singleton bs t ih =>
      simp only [mergeTickers, List.foldl_append, List.foldl_cons,
        List.foldl_nil] at ih ⊢
      by_cases hs : t.symbol = k
      · simp [List.filter_append, hs, List.getLast?_concat]
      · have hks : ¬ k = t.symbol := fun h => hs h.symm
        have hdec : (decide (t.symbol = k)) = false := by
          simpa using hs
        simp only [List.filter_append, List.filter_cons,
          List.filter_nil, hdec, Bool.false_eq_true, if_false,
          List.append_nil, if_neg hks]
        exact ih

/-- C6: a non-empty flushed batch is merged into the table with exactly
one state update (`set` call), the update stamp is set, and each key
maps afterwards to the last batch record carrying that key
(last-write-wins in arrival order), falling back to the prior entry
when the batch has none. -/
theorem flushBatch_lastWriteWins (st : TickerStore) (batch : List Ticker)
    (now : ℤ) (hne : batch ≠ []) :
    (flushBatch st batch now).setCalls = st.setCalls + 1 ∧
    (flushBatch st batch now).lastUpdateTime = now ∧
    ∀ k : String,
      (flushBatch st batch now).tickers k =
        match (batch.filter (fun t => t.symbol = k)).getLast? with
        | some t => some t
        | none => st.tickers k := by
  have hlen : ¬ batch.length = 0 := by simpa using hne
  unfold flushBatch
  rw [if_neg hlen]
  exact ⟨rfl, rfl, fun k => mergeTickers_eq_getLast st.tickers batch k⟩

/-- Witness for C6: flushing a batch with two `"BTCUSDT"` records into
the `"ETHUSDT"`-only store performs one `set` call and leaves the later
record under `"BTCUSDT"`. -/
theorem flushBatch_lastWriteWins_witness :
    (flushBatch ethStore [tBTC1, tBTC2] 5).setCalls = 1 ∧
    (flushBatch ethStore [tBTC1, tBTC2] 5).tickers "BTCUSDT" =
      some tBTC2 := by
  have h := flushBatch_lastWriteWins ethStore [tBTC1, tBTC2] 5
    (by simp)
  refine ⟨by simpa [ethStore] using h.1, ?_⟩
  rw [h.2.2 "BTCUSDT"]
  decide

/-- C10: the merge leaves every key that does not occur in the batch
unchanged.  (The model is purely functional, so the prior table value
`st.tickers` is itself immutable by construction — matching the
source's construction of a fresh `Map` per flush — and this theorem
expresses the induced frame property on the merged table.) -/
theorem flushBatch_frame (st : TickerStore) (batch : List Ticker)
    (now : ℤ) (k : String) (h : ∀ t ∈ batch, t.symbol ≠ k) :
    (flushBatch st batch now).tickers k = st.tickers k := by
  by_cases hlen : batch.length = 0
  · unfold flushBatch
    rw [if_pos hlen]
  · unfold flushBatch
    rw [if_neg hlen]
    show mergeTickers st.tickers batch k = st.tickers k
    rw [mergeTickers_eq_getLast]
    have hfil : batch.filter (fun t => t.symbol = k) = [] :=
      List.filter_eq_nil_iff.mpr (by simpa using h)
    rw [hfil]
    rfl

/-- Witness for C10: flushing the `"BTCUSDT"` batch leaves the
`"ETHUSDT"` entry untouched. -/
theorem flushBatch_frame_witness :
    (∀ t ∈ [tBTC1, tBTC2], t.symbol ≠ "ETHUSDT") ∧
    (flushBatch ethStore [tBTC1, tBTC2] 5).tickers "ETHUSDT" =
      ethStore.tickers "ETHUSDT" :=
  ⟨by decide, flushBatch_frame ethStore [tBTC1, tBTC2] 5 "ETHUSDT"
    (by decide)⟩
